import Mathlib

/-!
Verification development for the gapless-deribit-clickhouse backfill pipeline.

Shallow embedding of:
  * `utils/instrument_parser.py` — the instrument name codec
    (`parse_instrument`, `parse_expiry`, `is_valid_instrument`,
    `format_instrument`);
  * `collectors/trades_collector.py` — the page-continuity validator
    (`_validate_page_continuity`), the deduplication-token generator
    (`_generate_deduplication_token`, via a full SHA-256 model), the
    retried fetch (`_fetch_trades_page` under tenacity's `@retry`),
    and the checkpointed collection loop (`collect_trades`).

Machine integers are modelled as `Nat`/`Int` (Python integers are unbounded);
fallible code returns `Option`/`Except`-like sum types; the I/O environment
(HTTP responses, insert outcomes, the checkpoint file) is passed explicitly
as oracle functions and state.
-/

namespace GaplessDeribit

/-! ## Instrument name codec (`utils/instrument_parser.py`) -/

/-- Python `datetime.date`: a (year, month, day) triple.  `date(y, m, d)`
raises `ValueError` unless the triple is a real calendar date; that
validation is `Date.valid` below. -/
structure Date where
  year : Nat
  month : Nat
  day : Nat
deriving DecidableEq, Repr

/-- Gregorian leap-year rule, as implemented by Python's `datetime`. -/
def isLeapYear (y : Nat) : Bool :=
  y % 4 == 0 && (y % 100 != 0 || y % 400 == 0)

/-- Days in a month of a given year (Python `calendar`/`datetime` rule). -/
def daysInMonth (y m : Nat) : Nat :=
  if m == 2 then (if isLeapYear y then 29 else 28)
  else if m == 4 || m == 6 || m == 9 || m == 11 then 30
  else 31

/-- Whether `date(y, m, d)` succeeds in Python. -/
def Date.valid (d : Date) : Bool :=
  1 ≤ d.month && d.month ≤ 12 && 1 ≤ d.day && d.day ≤ daysInMonth d.year d.month

/-- `MONTH_MAP` keys, in insertion order (`list(MONTH_MAP.keys())`). -/
def monthAbbrs : List String :=
  ["JAN", "FEB", "MAR", "APR", "MAY", "JUN",
   "JUL", "AUG", "SEP", "OCT", "NOV", "DEC"]

/-- `MONTH_MAP` lookup: month abbreviation to month number (1-12),
`none` when the key is absent. -/
def monthMap (s : String) : Option Nat :=
  match (monthAbbrs.indexOf? s) with
  | some i => some (i + 1)
  | none => none

/-- The regex class `\d` over the code points the pattern can see. -/
def isDigitChar (c : Char) : Bool := 48 ≤ c.toNat && c.toNat ≤ 57

/-- The regex class `[A-Z]`. -/
def isUpperChar (c : Char) : Bool := 65 ≤ c.toNat && c.toNat ≤ 90

/-- Numeric value of a decimal digit character. -/
def digitVal (c : Char) : Nat := c.toNat - 48

/-- Decimal digit character for a value `< 10`. -/
def digitChr (n : Nat) : Char := Char.ofNat (48 + n)

/-- Value of a decimal digit string (`int(s)` on an all-digit string). -/
def natOfDigits (cs : List Char) : Nat :=
  cs.foldl (fun acc c => 10 * acc + digitVal c) 0

/-- Little-endian base-10 digits, by fuel-bounded structural recursion so
that the kernel can evaluate it (`Nat.digits` uses well-founded recursion). -/
def natDigitsRevAux : Nat → Nat → List Nat
  | 0, _ => []
  | _ + 1, 0 => []
  | f + 1, n + 1 => (n + 1) % 10 :: natDigitsRevAux f ((n + 1) / 10)

def natDigitsRev (n : Nat) : List Nat := natDigitsRevAux n n

/-- Python `str(n)` for a natural number: minimal decimal rendering. -/
def natToStr (n : Nat) : String :=
  if n = 0 then "0"
  else String.mk (((natDigitsRev n).map digitChr).reverse)

/-- Two-digit zero-padded rendering (`f"{n:02d}"` for `n < 100`). -/
def pad2 (n : Nat) : String :=
  String.mk [digitChr (n / 10 % 10), digitChr (n % 10)]

/-- Split a character list at `'-'` separators (the instrument pattern's
three literal dashes; no character class of the pattern contains `'-'`,
so the anchored regex decomposes its matches exactly at the dashes). -/
def splitDash (cs : List Char) : List (List Char) :=
  match cs with
  | [] => [[]]
  | c :: rest =>
    let r := splitDash rest
    if c = '-' then [] :: r
    else match r with
      | [] => [[c]]
      | seg :: segs => (c :: seg) :: segs

/-- Capture groups of `INSTRUMENT_PATTERN`:
`^(BTC|ETH)-(\d{1,2}[A-Z]{3}\d{2})-(\d+)-([CP])$`. -/
structure RawMatch where
  underlying : String
  dayStr : List Char
  monStr : List Char
  yearStr : List Char
  strikeStr : List Char
  optionType : String
deriving DecidableEq, Repr

/-- Match the expiry group `\d{1,2}[A-Z]{3}\d{2}` against a full segment:
a 6-character segment has a 1-digit day, a 7-character one a 2-digit day. -/
def matchExpiry (cs : List Char) : Option (List Char × List Char × List Char) :=
  match cs with
  | [d1, m1, m2, m3, y1, y2] =>
    if isDigitChar d1 && isUpperChar m1 && isUpperChar m2 && isUpperChar m3
        && isDigitChar y1 && isDigitChar y2 then
      some ([d1], [m1, m2, m3], [y1, y2])
    else none
  | [d1, d2, m1, m2, m3, y1, y2] =>
    if isDigitChar d1 && isDigitChar d2 && isUpperChar m1 && isUpperChar m2
        && isUpperChar m3 && isDigitChar y1 && isDigitChar y2 then
      some ([d1, d2], [m1, m2, m3], [y1, y2])
    else none
  | _ => none

/-- `INSTRUMENT_PATTERN.match`: `none` models a failed regex match,
`some` carries the capture groups. -/
def instrumentMatch (s : String) : Option RawMatch :=
  match splitDash s.data with
  | [u, e, k, t] =>
    if (u = "BTC".data || u = "ETH".data)
        && (k ≠ [] && k.all isDigitChar)
        && (t = ['C'] || t = ['P']) then
      match matchExpiry e with
      | some (d, m, y) =>
        some ⟨String.mk u, d, m, y, k, String.mk t⟩
      | none => none
    else none
  | _ => none

/-- Result record of `parse_instrument` (Python's `ParsedInstrument`).
Strikes are non-negative integer strings per the pattern; Python stores
`float(strike)`, which is exact for values below `2^53` — the model keeps
the integer value. -/
structure ParsedInstrument where
  instrument_name : String
  underlying : String
  expiry : Date
  strike : Nat
  option_type : String
deriving DecidableEq, Repr

/-- `parse_expiry` applied to already-split groups: looks the month up in
`MONTH_MAP`, derives the year as `2000 + yy`, and fails (raises
`InstrumentParseError`) when `date(year, month, day)` is not a real date. -/
def parseExpiryGroups (dayStr monStr yearStr : List Char) : Option Date :=
  match monthMap (String.mk monStr) with
  | none => none
  | some m =>
    let d : Date := ⟨2000 + natOfDigits yearStr, m, natOfDigits dayStr⟩
    if d.valid then some d else none

/-- `parse_instrument`: regex match, then `parse_expiry` on the expiry
group.  `none` models a raised `InstrumentParseError`. -/
def parse_instrument (s : String) : Option ParsedInstrument :=
  match instrumentMatch s with
  | none => none
  | some rm =>
    match parseExpiryGroups rm.dayStr rm.monStr rm.yearStr with
    | none => none
    | some d =>
      some ⟨s, rm.underlying, d, natOfDigits rm.strikeStr, rm.optionType⟩

/-- `is_valid_instrument`: a bare regex-pattern check, with no calendar
validation of the expiry. -/
def is_valid_instrument (s : String) : Bool :=
  (instrumentMatch s).isSome

/-- `format_instrument`: renders
`f"{underlying}-{expiry.day}{month_abbr}{expiry.year % 100:02d}-{int(strike)}-{option_type}"`,
raising (`none`) on an unknown underlying or option type.  Note the day is
rendered by `str(day)` with no zero padding. -/
def format_instrument (underlying : String) (expiry : Date) (strike : Nat)
    (option_type : String) : Option String :=
  if underlying ≠ "BTC" && underlying ≠ "ETH" then none
  else if option_type ≠ "C" && option_type ≠ "P" then none
  else
    let monthAbbr := monthAbbrs.getD (expiry.month - 1) ""
    let expiryStr := natToStr expiry.day ++ monthAbbr ++ pad2 (expiry.year % 100)
    some (underlying ++ "-" ++ expiryStr ++ "-" ++ natToStr strike ++ "-" ++ option_type)

/-- `format_instrument` applied to the fields of a `ParsedInstrument`,
as in the round-trip property `format(parse(s))`. -/
def formatParsed (p : ParsedInstrument) : Option String :=
  format_instrument p.underlying p.expiry p.strike p.option_type

/-- The canonical instrument name built from components: the grammar
strings whose day and strike carry no leading zeros (each numeric field
is the minimal decimal rendering of its value, the year two-digit
zero-padded as the grammar requires). -/
def mkName (u : String) (d m y k : Nat) (t : String) : String :=
  u ++ "-" ++ (natToStr d ++ monthAbbrs.getD (m - 1) "" ++ pad2 y)
    ++ "-" ++ natToStr k ++ "-" ++ t

/-! ## Trades and the page-continuity validator
(`collectors/trades_collector.py` lines 58-94) -/

/-- Python `str(i)` for an integer. -/
def intToStr (i : Int) : String :=
  if i < 0 then "-" ++ natToStr i.natAbs else natToStr i.natAbs

/-- A raw API trade record, restricted to the fields the collector core
reads (`trade_id` and `timestamp`); the remaining payload fields are
carried through unchanged and never branched on. -/
structure Trade where
  trade_id : String
  timestamp : Int
deriving DecidableEq, Repr

/-- Python `min` over a non-empty list of timestamps (0 on `[]`, where the
source would raise; all call sites guard non-emptiness). -/
def listMinTs : List Trade → Int
  | [] => 0
  | t :: ts => ts.foldl (fun acc u => min acc u.timestamp) t.timestamp

/-- Python `max` over a non-empty list of timestamps. -/
def listMaxTs : List Trade → Int
  | [] => 0
  | t :: ts => ts.foldl (fun acc u => max acc u.timestamp) t.timestamp

/-- `len({t["trade_id"] for t in prev} & {t["trade_id"] for t in curr})`:
set-intersection cardinality of the two pages' trade ids. -/
def dupCount (prev curr : List Trade) : Nat :=
  (((prev.map Trade.trade_id).eraseDups).filter
    (fun i => (curr.map Trade.trade_id).contains i)).length

/-- `_validate_page_continuity`: gap rule and duplicate rule, both advisory.
`gapThreshold` models `int(os.environ.get("PAGINATION_GAP_THRESHOLD_MS",
"1000"))` (default 1000). -/
def validatePageContinuity (prevTrades currTrades : List Trade)
    (gapThreshold : Int) : Bool × List String :=
  if prevTrades = [] ∨ currTrades = [] then (true, [])
  else
    let prevOldest := listMinTs prevTrades
    let currNewest := listMaxTs currTrades
    let gapMs := prevOldest - currNewest
    let gapWarns : List String :=
      if gapMs > gapThreshold then
        ["Gap detected: " ++ intToStr gapMs ++ "ms between pages (threshold: "
          ++ intToStr gapThreshold ++ "ms)"]
      else []
    let dups := dupCount prevTrades currTrades
    let dupWarns : List String :=
      if dups ≠ 0 then
        ["Duplicates: " ++ natToStr dups ++ " trades appear in both pages"]
      else []
    let warns := gapWarns ++ dupWarns
    (warns.length = 0, warns)

/-! ## Deduplication token (`_generate_deduplication_token`, lines 147-155)

`hashlib.sha256(token_input.encode()).hexdigest()[:32]`, modelled by a
full SHA-256 (FIPS 180-4) over the UTF-8 bytes of the input string, with
32-bit words as `Nat` reduced `% 2^32`. -/

/-- Reduce to a 32-bit word. -/
def w32 (n : Nat) : Nat := n % 4294967296

/-- Right rotation of a 32-bit word. -/
def rotr32 (x k : Nat) : Nat := w32 (x / 2 ^ k + x % 2 ^ k * 2 ^ (32 - k))

/-- Logical right shift. -/
def shr32 (x k : Nat) : Nat := x / 2 ^ k

/-- Bitwise complement of a 32-bit word. -/
def not32 (a : Nat) : Nat := 4294967295 ^^^ a

def bigSigma0 (x : Nat) : Nat := rotr32 x 2 ^^^ rotr32 x 13 ^^^ rotr32 x 22

def bigSigma1 (x : Nat) : Nat := rotr32 x 6 ^^^ rotr32 x 11 ^^^ rotr32 x 25

def smallSigma0 (x : Nat) : Nat := rotr32 x 7 ^^^ rotr32 x 18 ^^^ shr32 x 3

def smallSigma1 (x : Nat) : Nat := rotr32 x 17 ^^^ rotr32 x 19 ^^^ shr32 x 10

def chFn (x y z : Nat) : Nat := (x &&& y) ^^^ (not32 x &&& z)

def majFn (x y z : Nat) : Nat := (x &&& y) ^^^ (x &&& z) ^^^ (y &&& z)

/-- The 64 SHA-256 round constants. -/
def shaK : List Nat :=
  [1116352408, 1899447441, 3049323471, 3921009573,
   961987163, 1508970993, 2453635748, 2870763221,
   3624381080, 310598401, 607225278, 1426881987,
   1925078388, 2162078206, 2614888103, 3248222580,
   3835390401, 4022224774, 264347078, 604807628,
   770255983, 1249150122, 1555081692, 1996064986,
   2554220882, 2821834349, 2952996808, 3210313671,
   3336571891, 3584528711, 113926993, 338241895,
   666307205, 773529912, 1294757372, 1396182291,
   1695183700, 1986661051, 2177026350, 2456956037,
   2730485921, 2820302411, 3259730800, 3345764771,
   3516065817, 3600352804, 4094571909, 275423344,
   430227734, 506948616, 659060556, 883997877,
   958139571, 1322822218, 1537002063, 1747873779,
   1955562222, 2024104815, 2227730452, 2361852424,
   2428436474, 2756734187, 3204031479, 3329325298]

/-- The SHA-256 working/hash state: eight 32-bit words. -/
structure Hash8 where
  a : Nat
  b : Nat
  c : Nat
  d : Nat
  e : Nat
  f : Nat
  g : Nat
  h : Nat
deriving DecidableEq, Repr

/-- The SHA-256 initial hash value. -/
def shaH0 : Hash8 :=
  ⟨1779033703, 3144134277, 1013904242, 2773480762,
   1359893119, 2600822924, 528734635, 1541459225⟩

/-- Big-endian 8-byte encoding of the bit length. -/
def beBytes8 (n : Nat) : List Nat :=
  (List.range 8).map (fun i => n / 2 ^ (8 * (7 - i)) % 256)

/-- SHA-256 padding: `0x80`, zeros to 56 mod 64, 8-byte bit length. -/
def padMessage (msg : List Nat) : List Nat :=
  msg ++ [128] ++ List.replicate ((64 - (msg.length + 9) % 64) % 64) 0
    ++ beBytes8 (8 * msg.length)

/-- Split into 64-byte blocks (fuel-bounded structural recursion). -/
def chunks64 : Nat → List Nat → List (List Nat)
  | 0, _ => []
  | _ + 1, [] => []
  | fuel + 1, l => l.take 64 :: chunks64 fuel (l.drop 64)

/-- The 16 big-endian 32-bit words of one 64-byte block. -/
def blockWords (b : List Nat) : List Nat :=
  (List.range 16).map (fun i =>
    b.getD (4 * i) 0 * 16777216 + b.getD (4 * i + 1) 0 * 65536
      + b.getD (4 * i + 2) 0 * 256 + b.getD (4 * i + 3) 0)

/-- Extend the 16 block words to the 64-entry message schedule. -/
def scheduleAux : Nat → List Nat → List Nat
  | 0, acc => acc
  | fuel + 1, acc =>
    scheduleAux fuel (acc ++
      [w32 (smallSigma1 (acc.getD (acc.length - 2) 0)
        + acc.getD (acc.length - 7) 0
        + smallSigma0 (acc.getD (acc.length - 15) 0)
        + acc.getD (acc.length - 16) 0)])

def schedule (ws : List Nat) : List Nat := scheduleAux 48 ws

/-- One of the 64 compression rounds. -/
def compressRound (s : Hash8) (ki wi : Nat) : Hash8 :=
  let t1 := w32 (s.h + bigSigma1 s.e + chFn s.e s.f s.g + ki + wi)
  let t2 := w32 (bigSigma0 s.a + majFn s.a s.b s.c)
  ⟨w32 (t1 + t2), s.a, s.b, s.c, w32 (s.d + t1), s.e, s.f, s.g⟩

/-- Compress one block into the running hash. -/
def compressBlock (hs : Hash8) (block : List Nat) : Hash8 :=
  let ws := schedule (blockWords block)
  let s := (List.range 64).foldl
    (fun s i => compressRound s (shaK.getD i 0) (ws.getD i 0)) hs
  ⟨w32 (hs.a + s.a), w32 (hs.b + s.b), w32 (hs.c + s.c), w32 (hs.d + s.d),
   w32 (hs.e + s.e), w32 (hs.f + s.f), w32 (hs.g + s.g), w32 (hs.h + s.h)⟩

/-- SHA-256 of a byte sequence, as the eight final hash words. -/
def sha256Hash (msg : List Nat) : Hash8 :=
  (chunks64 (padMessage msg).length (padMessage msg)).foldl compressBlock shaH0

/-- Lowercase hex digit, as `hexdigest` produces. -/
def hexChar (n : Nat) : Char :=
  if n < 10 then digitChr n else Char.ofNat (87 + n)

/-- Eight hex characters of one 32-bit word, most significant first. -/
def wordHex8 (w : Nat) : List Char :=
  (List.range 8).map (fun i => hexChar (w / 16 ^ (7 - i) % 16))

/-- `hashlib.sha256(...).hexdigest()`: 64 lowercase hex characters. -/
def sha256hexChars (msg : List Nat) : List Char :=
  wordHex8 (sha256Hash msg).a ++ wordHex8 (sha256Hash msg).b
    ++ wordHex8 (sha256Hash msg).c ++ wordHex8 (sha256Hash msg).d
    ++ wordHex8 (sha256Hash msg).e ++ wordHex8 (sha256Hash msg).f
    ++ wordHex8 (sha256Hash msg).g ++ wordHex8 (sha256Hash msg).h

/-- UTF-8 encoding of one code point (`str.encode()` per character). -/
def utf8Char (c : Char) : List Nat :=
  let n := c.toNat
  if n < 128 then [n]
  else if n < 2048 then [192 + n / 64, 128 + n % 64]
  else if n < 65536 then
    [224 + n / 4096, 128 + n / 64 % 64, 128 + n % 64]
  else
    [240 + n / 262144, 128 + n / 4096 % 64, 128 + n / 64 % 64, 128 + n % 64]

/-- `str.encode()`: UTF-8 bytes of a string. -/
def utf8Bytes (s : String) : List Nat := s.data.flatMap utf8Char

/-- `_generate_deduplication_token`: SHA-256 hexdigest of
`f"{currency}:{start_ts}:{end_ts}:{batch}"`, truncated to 32 characters. -/
def _generate_deduplication_token (currency : String)
    (start_ts end_ts batch : Nat) : String :=
  String.mk ((sha256hexChars (utf8Bytes (currency ++ ":" ++ natToStr start_ts
    ++ ":" ++ natToStr end_ts ++ ":" ++ natToStr batch))).take 32)

/-- The 128-bit truncation seen as the first four hash words: the value
space the truncated hexdigest ranges over. -/
def render4 (q : Nat × Nat × Nat × Nat) : String :=
  String.mk (wordHex8 q.1 ++ wordHex8 q.2.1 ++ wordHex8 q.2.2.1
    ++ wordHex8 q.2.2.2)

/-- All eight hash words fit in 32 bits. -/
def Hash8.bounded (s : Hash8) : Prop :=
  s.a < 4294967296 ∧ s.b < 4294967296 ∧ s.c < 4294967296 ∧
  s.d < 4294967296 ∧ s.e < 4294967296 ∧ s.f < 4294967296 ∧
  s.g < 4294967296 ∧ s.h < 4294967296

/-! ## Retried fetch (`_fetch_trades_page` under tenacity, lines 97-144) -/

/-- One HTTP exchange as observed by `_fetch_trades_page`. -/
structure HttpResponse where
  status : Nat
  hasErrorField : Bool
  result : List Trade
deriving DecidableEq, Repr

/-- The failure modes of a single `_fetch_trades_page` attempt:
a transport-level exception from the HTTP client, a non-200 status
(`APIError` at line 137), or the API-level error envelope on a 200
response (`"error" in data`, `APIError` at line 142). -/
inductive FetchFailure where
  | transport
  | httpStatus (code : Nat)
  | apiEnvelope
deriving DecidableEq, Repr

/-- Outcome of one `_fetch_trades_page` attempt: the page on success, a
raised `APIError`/transport exception otherwise. -/
inductive FetchResult where
  | ok (page : List Trade)
  | err (e : FetchFailure)
deriving DecidableEq, Repr

/-- The body of `_fetch_trades_page` for one attempt.  The oracle value is
`none` when the HTTP client itself raises (transport failure), otherwise
the response received. -/
def fetchTradesPageOnce (attempt : Option HttpResponse) : FetchResult :=
  match attempt with
  | none => .err .transport
  | some r =>
    if r.status ≠ 200 then .err (.httpStatus r.status)
    else if r.hasErrorField then .err .apiEnvelope
    else .ok r.result

def MAX_RETRIES : Nat := 3

/-- tenacity `@retry(stop=stop_after_attempt(MAX_RETRIES), wait=...)` with
no `retry=` predicate: every raised exception triggers a retry until the
attempt budget is exhausted, at which point the failure propagates.
Returns the outcome together with the number of attempts performed;
`responses i` is the oracle for attempt `i`. -/
def retryFetchFrom (responses : Nat → Option HttpResponse) :
    Nat → Nat → FetchResult × Nat
  | i, 0 => (.err .transport, i)
  | i, left + 1 =>
    match fetchTradesPageOnce (responses i) with
    | .ok page => (.ok page, i + 1)
    | .err e =>
      if left = 0 then (.err e, i + 1)
      else retryFetchFrom responses (i + 1) left

/-- `_fetch_trades_page` as called through its retry decorator. -/
def fetchTradesPage (responses : Nat → Option HttpResponse) :
    FetchResult × Nat :=
  retryFetchFrom responses 0 MAX_RETRIES

/-! ## The checkpointed collection loop (`collect_trades`, lines 211-384) -/

def BATCH_SIZE_FOR_INSERT : Nat := 10000

/-- The persisted checkpoint record (the JSON object written at lines
337-343).  The wall-clock `updated_at` field is write-only informational
metadata and never read back; it is omitted from the model. -/
structure Checkpoint where
  last_end_ts : Int
  batch_number : Nat
  total_collected : Nat
  pagination_warnings : Nat
deriving DecidableEq, Repr

/-- The parameters of one `collect_trades` call, after date strings have
been resolved to millisecond timestamps (`startTs`/`endTs`), together with
the two environment-variable knobs read inside the loop. -/
structure CollectConfig where
  startTs : Int
  endTs : Int
  insertToDb : Bool
  resume : Bool
  returnData : Bool
  maxMemoryRows : Nat
  gapThreshold : Int
  logWarnings : Bool
deriving DecidableEq, Repr

/-- The mutable state of one `collect_trades` run: the cursor variables,
the accumulation buffers, the fetch counter (model bookkeeping indexing
the oracles), and the durable checkpoint-file slot for this job key. -/
structure CollectorState where
  currentEndTs : Int
  batchNumber : Nat
  totalCollected : Nat
  paginationWarnings : Nat
  batchTrades : List Trade
  recentTrades : List Trade
  prevTrades : List Trade
  iter : Nat
  checkpointFile : Option Checkpoint
deriving DecidableEq, Repr

/-- `collections.deque(maxlen=m).extend`: append, then discard the oldest
entries beyond the capacity. -/
def dequeExtend (maxlen : Nat) (d rows : List Trade) : List Trade :=
  let d2 := d ++ rows
  d2.drop (d2.length - maxlen)

/-- Exceptions that abort a `collect_trades` run: an `APIError` with
retries exhausted at the fetch layer, or a storage-layer insert failure
(not retried by this core). -/
inductive CollectorError where
  | api
  | storage
deriving DecidableEq, Repr

/-- How one loop iteration ended: continue, `break` on an empty page, or a
raised exception propagating out of the loop. -/
inductive BodyTag where
  | cont
  | brk
  | fail (e : CollectorError)
deriving DecidableEq, Repr

/-- Lines 302-321 of the loop body: validate the page against the
previous one, count warnings (only when `PAGINATION_LOG_WARNINGS` is on),
track the page, extend the bounded deque and the pending insert batch,
and advance the cursor to `(min timestamp in page) − 1`. -/
def accumulate (cfg : CollectConfig) (trades : List Trade)
    (st : CollectorState) : CollectorState :=
  let v := validatePageContinuity st.prevTrades trades cfg.gapThreshold
  let warnInc := if v.1 = false ∧ cfg.logWarnings then v.2.length else 0
  let maxlen := if cfg.returnData then cfg.maxMemoryRows else 0
  { st with
    paginationWarnings := st.paginationWarnings + warnInc,
    prevTrades := trades,
    recentTrades :=
      if cfg.returnData then dequeExtend maxlen st.recentTrades trades
      else st.recentTrades,
    batchTrades := st.batchTrades ++ trades,
    currentEndTs := listMinTs trades - 1 }

/-- Lines 324-343 of the loop body: when inserts are enabled and the
pending batch has reached `BATCH_SIZE_FOR_INSERT`, increment the batch
number and submit the batch; a failing insert raises (checkpoint file
untouched), a successful insert is followed — strictly after — by the
checkpoint write recording the advanced cursor. -/
def insertStage (cfg : CollectConfig) (insertOk : Nat → Bool)
    (st : CollectorState) : CollectorState × BodyTag :=
  if cfg.insertToDb ∧ st.batchTrades.length ≥ BATCH_SIZE_FOR_INSERT then
    if insertOk (st.batchNumber + 1) = false then
      ({ st with batchNumber := st.batchNumber + 1 }, .fail .storage)
    else
      ({ st with
         batchNumber := st.batchNumber + 1,
         totalCollected := st.totalCollected + st.batchTrades.length,
         batchTrades := [],
         checkpointFile :=
           some ⟨st.currentEndTs, st.batchNumber + 1,
             st.totalCollected + st.batchTrades.length,
             st.paginationWarnings⟩ }, .cont)
  else (st, .cont)

/-- One iteration of the `while current_end_ts > start_ts` loop body
(lines 291-349).  `pages i` is the trade list of the `i`-th successful
fetch; `fetchOk i = false` models the `i`-th fetch failing with retries
exhausted; `insertOk b = false` models the insert of batch `b` raising a
storage error.  Progress logging (lines 346-349) is side-effect-only and
omitted. -/
def collectBody (cfg : CollectConfig) (pages : Nat → List Trade)
    (insertOk : Nat → Bool) (fetchOk : Nat → Bool)
    (st : CollectorState) : CollectorState × BodyTag :=
  if fetchOk st.iter = false then (st, .fail .api)
  else
    let trades := pages st.iter
    let st1 := { st with iter := st.iter + 1 }
    if trades = [] then (st1, .brk)
    else insertStage cfg insertOk (accumulate cfg trades st1)

/-- Why the loop stopped: normal exit (condition false or empty page),
a propagated exception, or model fuel exhaustion (the source loop has no
fuel; theorems about completed runs are conditioned on not running out). -/
inductive LoopEnd where
  | finished
  | failed (e : CollectorError)
  | outOfFuel
deriving DecidableEq, Repr

/-- The fetch/validate/accumulate/insert/checkpoint loop. -/
def collectLoop (cfg : CollectConfig) (pages : Nat → List Trade)
    (insertOk : Nat → Bool) (fetchOk : Nat → Bool) :
    Nat → CollectorState → CollectorState × LoopEnd
  | 0, st => (st, .outOfFuel)
  | fuel + 1, st =>
    if st.currentEndTs > cfg.startTs then
      match collectBody cfg pages insertOk fetchOk st with
      | (st', .cont) => collectLoop cfg pages insertOk fetchOk fuel st'
      | (st', .brk) => (st', .finished)
      | (st', .fail e) => (st', .failed e)
    else (st, .finished)

/-- Cursor initialization (lines 259-288): load the checkpoint only when
`resume` is set; restore `current_end_ts`, `batch_number` and
`total_collected` from it, or start fresh at `end_ts`/0/0.
`pagination_warnings` is initialized to 0 at line 288 in both cases.
The checkpoint file itself (`checkpointFile`) is not modified by loading. -/
def initState (cfg : CollectConfig) (fs : Option Checkpoint) : CollectorState :=
  let checkpoint := if cfg.resume then fs else none
  match checkpoint with
  | some c =>
    { currentEndTs := c.last_end_ts, batchNumber := c.batch_number,
      totalCollected := c.total_collected, paginationWarnings := 0,
      batchTrades := [], recentTrades := [], prevTrades := [], iter := 0,
      checkpointFile := fs }
  | none =>
    { currentEndTs := cfg.endTs, batchNumber := 0, totalCollected := 0,
      paginationWarnings := 0, batchTrades := [], recentTrades := [],
      prevTrades := [], iter := 0, checkpointFile := fs }

/-- The stats dict returned when `return_data=False` (lines 371-379);
the echoed string parameters are omitted. -/
structure CollectStats where
  total_collected : Nat
  batches : Nat
  pagination_warnings : Nat
deriving DecidableEq, Repr

/-- `collect_trades`'s return value: a stats dict or a DataFrame, the
latter modelled as its row list. -/
inductive CollectReturn where
  | stats (s : CollectStats)
  | data (rows : List Trade)
deriving DecidableEq, Repr

/-- How a `collect_trades` call ended. -/
inductive Outcome where
  | done (r : CollectReturn)
  | failed (e : CollectorError)
  | outOfFuel
deriving DecidableEq, Repr

/-- Lines 352-361: after the loop exits normally, insert the remaining
partial batch the same way (the batch list itself is a dead local
afterwards and is not cleared). -/
def drainStage (cfg : CollectConfig) (insertOk : Nat → Bool)
    (st : CollectorState) : CollectorState × Option CollectorError :=
  if cfg.insertToDb ∧ st.batchTrades ≠ [] then
    if insertOk (st.batchNumber + 1) = false then
      ({ st with batchNumber := st.batchNumber + 1 }, some .storage)
    else
      ({ st with
         batchNumber := st.batchNumber + 1,
         totalCollected := st.totalCollected + st.batchTrades.length }, none)
  else (st, none)

/-- Lines 363-384: `_clear_checkpoint`, then build the return value. -/
def finishRun (cfg : CollectConfig) (st : CollectorState) :
    CollectorState × Outcome :=
  if cfg.returnData = false then
    ({ st with checkpointFile := none },
     .done (.stats ⟨st.totalCollected, st.batchNumber,
       st.paginationWarnings⟩))
  else
    ({ st with checkpointFile := none }, .done (.data st.recentTrades))

/-- `collect_trades` (lines 211-384): initialize from the checkpoint, run
the loop, insert the remaining partial batch, clear the checkpoint, and
build the return value.  The result pairs the final state (whose
`checkpointFile` component is the on-disk state when the call returns or
raises) with the outcome. -/
def collect_trades (cfg : CollectConfig) (pages : Nat → List Trade)
    (insertOk : Nat → Bool) (fetchOk : Nat → Bool)
    (fs : Option Checkpoint) (fuel : Nat) : CollectorState × Outcome :=
  let st0 := initState cfg fs
  match collectLoop cfg pages insertOk fetchOk fuel st0 with
  | (st, .outOfFuel) => (st, .outOfFuel)
  | (st, .failed e) => (st, .failed e)
  | (st, .finished) =>
    match drainStage cfg insertOk st with
    | (st', some e) => (st', .failed e)
    | (st', none) => finishRun cfg st'

/-! ## Concrete fixtures used by counterexamples and witnesses -/

/-- Attempt oracle whose first response is a 200 carrying the API error
envelope and whose second is a clean 200 with one trade. -/
def respSeqEnvelopeThenOk : Nat → Option HttpResponse := fun i =>
  if i = 0 then some ⟨200, true, []⟩ else some ⟨200, false, [⟨"t", 5⟩]⟩

/-- A config with inserts enabled and no returned data. -/
def cfgInsert : CollectConfig :=
  { startTs := 0, endTs := 1000, insertToDb := true, resume := true,
    returnData := false, maxMemoryRows := 100000, gapThreshold := 1000,
    logWarnings := true }

/-- A config with inserts disabled and returned data enabled. -/
def cfgNoInsert : CollectConfig :=
  { startTs := 0, endTs := 1000, insertToDb := false, resume := false,
    returnData := true, maxMemoryRows := 100000, gapThreshold := 1000,
    logWarnings := true }

/-- A state mid-run whose accumulated batch is one row short of the insert
threshold and whose checkpoint slot holds an earlier batch's record. -/
def stNearThreshold : CollectorState :=
  { currentEndTs := 500, batchNumber := 3, totalCollected := 30000,
    paginationWarnings := 0,
    batchTrades := List.replicate (BATCH_SIZE_FOR_INSERT - 1) ⟨"a", 450⟩,
    recentTrades := [], prevTrades := [], iter := 0,
    checkpointFile := some ⟨77, 3, 30000, 0⟩ }

/-- A state whose cursor sits at 1000 with empty buffers. -/
def stCursor1000 : CollectorState :=
  { currentEndTs := 1000, batchNumber := 0, totalCollected := 0,
    paginationWarnings := 0, batchTrades := [], recentTrades := [],
    prevTrades := [], iter := 0, checkpointFile := none }

/-- Page oracle: every fetch returns one trade stamped 1002 — a timestamp
*later* than the requested window's end. -/
def pagesBeyondWindow : Nat → List Trade := fun _ => [⟨"x", 1002⟩]

/-- Page oracle: the first fetch returns one trade stamped 400, every
further fetch returns nothing. -/
def pagesOneThenEmpty : Nat → List Trade := fun i =>
  if i = 0 then [⟨"b", 400⟩] else []

/-- Oracle under which every insert succeeds. -/
def insertAlwaysOk : Nat → Bool := fun _ => true

/-- Oracle under which every insert raises a storage error. -/
def insertAlwaysFail : Nat → Bool := fun _ => false

/-- Oracle under which every fetch succeeds. -/
def fetchAlwaysOk : Nat → Bool := fun _ => true

/-- Concatenation, in collection order, of the rows produced by the first
`k` fetches: the rows `collect_trades` has appended to its buffers after
`k` pages. -/
def pagesConcat (pages : Nat → List Trade) (k : Nat) : List Trade :=
  (List.range k).flatMap pages

/-- `cfgNoInsert` with the memory bound tightened to 100 rows. -/
def cfgMem100 : CollectConfig :=
  { startTs := 0, endTs := 1000, insertToDb := false, resume := false,
    returnData := true, maxMemoryRows := 100, gapThreshold := 1000,
    logWarnings := true }

/-- Does `pat` occur at the head of `txt`? -/
def headMatch : List Char → List Char → Bool
  | [], _ => true
  | _ :: _, [] => false
  | p :: ps, t :: ts => (p = t) && headMatch ps ts

/-- Substring containment (Python's `sub in s` on strings). -/
def containsSub (pat : List Char) : List Char → Bool
  | [] => headMatch pat []
  | t :: ts => headMatch pat (t :: ts) || containsSub pat ts

/-! ## Theorems -/

theorem natDigitsRevAux_eq_digits (f n : Nat) (h : n ≤ f) :
    natDigitsRevAux f n = Nat.digits 10 n := by
  induction f generalizing n with
  | zero =>
    interval_cases n
    simp [natDigitsRevAux]
  | succ f ih =>
    match n with
    | 0 => simp [natDigitsRevAux]
    | n + 1 =>
      rw [natDigitsRevAux, ih _ (by omega),
        Nat.digits_def' (by norm_num : 1 < 10) (Nat.succ_pos n)]

theorem natDigitsRev_eq_digits (n : Nat) : natDigitsRev n = Nat.digits 10 n :=
  natDigitsRevAux_eq_digits n n le_rfl

/-! Digit-string lemmas for the instrument-codec round trip (claim C2). -/

theorem digitChr_toNat (x : Nat) (h : x < 10) : (digitChr x).toNat = 48 + x := by
  have hv : (48 + x).isValidChar := Or.inl (by omega)
  simp [digitChr, Char.ofNat, hv, Char.ofNatAux, Char.toNat, UInt32.toNat,
    BitVec.toNat_ofNatLt]

theorem digitVal_digitChr (x : Nat) (h : x < 10) : digitVal (digitChr x) = x := by
  simp [digitVal, digitChr_toNat x h]

theorem isDigitChar_digitChr (x : Nat) (h : x < 10) :
    isDigitChar (digitChr x) = true := by
  simp only [isDigitChar, digitChr_toNat x h, Bool.and_eq_true,
    decide_eq_true_eq]
  omega

theorem natOfDigits_foldl (cs : List Char) : ∀ acc : Nat,
    cs.foldl (fun a c => 10 * a + digitVal c) acc
      = Nat.ofDigits 10 ((cs.map digitVal).reverse) + acc * 10 ^ cs.length := by
  induction cs with
  | nil => intro acc; simp
  | cons c cs ih =>
    intro acc
    simp only [List.foldl_cons, List.map_cons, List.reverse_cons,
      List.length_cons]
    rw [ih, Nat.ofDigits_append]
    simp only [Nat.ofDigits_singleton, List.length_reverse, List.length_map]
    ring

theorem natOfDigits_eq_ofDigits (cs : List Char) :
    natOfDigits cs = Nat.ofDigits 10 ((cs.map digitVal).reverse) := by
  have h := natOfDigits_foldl cs 0
  simpa [natOfDigits] using h

theorem natToStr_data_of_pos (n : Nat) (h : 0 < n) :
    (natToStr n).data = ((Nat.digits 10 n).map digitChr).reverse := by
  have hne : n ≠ 0 := Nat.pos_iff_ne_zero.mp h
  simp [natToStr, hne, natDigitsRev_eq_digits]

theorem natOfDigits_natToStr (n : Nat) : natOfDigits (natToStr n).data = n := by
  by_cases h : n = 0
  · subst h; decide
  · rw [natToStr_data_of_pos n (Nat.pos_of_ne_zero h), natOfDigits_eq_ofDigits]
    have hmap : ((((Nat.digits 10 n).map digitChr).reverse).map digitVal).reverse
        = Nat.digits 10 n := by
      rw [List.map_reverse, List.reverse_reverse, List.map_map]
      have hcongr : (Nat.digits 10 n).map (digitVal ∘ digitChr)
          = (Nat.digits 10 n).map id := by
        apply List.map_congr_left
        intro x hx
        have hx10 : x < 10 := Nat.digits_lt_base (by norm_num) hx
        simp [digitVal_digitChr x hx10]
      rw [hcongr, List.map_id]
    rw [hmap, Nat.ofDigits_digits]

theorem natToStr_all_digits (n : Nat) :
    (natToStr n).data.all isDigitChar = true := by
  by_cases h : n = 0
  · subst h; decide
  · rw [natToStr_data_of_pos n (Nat.pos_of_ne_zero h)]
    simp only [List.all_eq_true, List.mem_reverse, List.mem_map]
    rintro c ⟨x, hx, rfl⟩
    exact isDigitChar_digitChr x (Nat.digits_lt_base (by norm_num) hx)

theorem natToStr_ne_nil (n : Nat) : (natToStr n).data ≠ [] := by
  by_cases h : n = 0
  · subst h; decide
  · rw [natToStr_data_of_pos n (Nat.pos_of_ne_zero h)]
    simp [Nat.digits_ne_nil_iff_ne_zero, h]

theorem natToStr_data_lt10 (d : Nat) (h1 : 0 < d) (h2 : d < 10) :
    (natToStr d).data = [digitChr d] := by
  rw [natToStr_data_of_pos d h1,
    Nat.digits_def' (by norm_num : 1 < 10) h1,
    Nat.mod_eq_of_lt h2, Nat.div_eq_of_lt h2]
  simp

theorem natToStr_data_lt100 (d : Nat) (h1 : 10 ≤ d) (h2 : d < 100) :
    (natToStr d).data = [digitChr (d / 10), digitChr (d % 10)] := by
  rw [natToStr_data_of_pos d (by omega),
    Nat.digits_def' (by norm_num : 1 < 10) (by omega),
    Nat.digits_def' (by norm_num : 1 < 10) (by omega : 0 < d / 10)]
  have hz : d / 10 / 10 = 0 := by omega
  have hmod : d / 10 % 10 = d / 10 := Nat.mod_eq_of_lt (by omega)
  rw [hz, hmod]
  simp

theorem pad2_data (y : Nat) :
    (pad2 y).data = [digitChr (y / 10 % 10), digitChr (y % 10)] := rfl

theorem natOfDigits_pad2 (y : Nat) (h : y < 100) :
    natOfDigits (pad2 y).data = y := by
  show natOfDigits [digitChr (y / 10 % 10), digitChr (y % 10)] = y
  simp only [natOfDigits, List.foldl_cons, List.foldl_nil,
    digitVal_digitChr (y / 10 % 10) (by omega),
    digitVal_digitChr (y % 10) (by omega)]
  omega

theorem pad2_all_digits (y : Nat) : (pad2 y).data.all isDigitChar = true := by
  show ([digitChr (y / 10 % 10), digitChr (y % 10)]).all isDigitChar = true
  simp [isDigitChar_digitChr (y / 10 % 10) (by omega),
    isDigitChar_digitChr (y % 10) (by omega)]

/-! Splitting at dashes: the three literal dashes of the pattern are the
only dashes in a match, since no character class of the pattern admits
`'-'`. -/

theorem splitDash_noDash (cs : List Char)
    (h : cs.all (fun c => c != '-') = true) : splitDash cs = [cs] := by
  induction cs with
  | nil => rfl
  | cons c cs ih =>
    simp only [List.all_cons, Bool.and_eq_true, bne_iff_ne, ne_eq] at h
    simp [splitDash, h.1, ih (by simpa using h.2)]

theorem splitDash_append (cs rest : List Char)
    (h : cs.all (fun c => c != '-') = true) :
    splitDash (cs ++ '-' :: rest) = cs :: splitDash rest := by
  induction cs with
  | nil => simp [splitDash]
  | cons c cs ih =>
    simp only [List.all_cons, Bool.and_eq_true, bne_iff_ne, ne_eq] at h
    simp only [List.cons_append]
    simp [splitDash, h.1, ih (by simpa using h.2)]

theorem all_digits_noDash (cs : List Char) (h : cs.all isDigitChar = true) :
    cs.all (fun c => c != '-') = true := by
  simp only [List.all_eq_true] at h ⊢
  intro c hc
  have hd := h c hc
  simp only [bne_iff_ne, ne_eq]
  intro hcd
  subst hcd
  exact absurd hd (by decide)

theorem all_upper_noDash (cs : List Char) (h : cs.all isUpperChar = true) :
    cs.all (fun c => c != '-') = true := by
  simp only [List.all_eq_true] at h ⊢
  intro c hc
  have hd := h c hc
  simp only [bne_iff_ne, ne_eq]
  intro hcd
  subst hcd
  exact absurd hd (by decide)

/-- Facts about the month-abbreviation table, checked for each of the 12
months: three uppercase non-dash letters, and `MONTH_MAP` inverts the
table lookup. -/
theorem month_facts : ∀ m, m < 13 → 1 ≤ m →
    ((monthAbbrs.getD (m - 1) "").data.length = 3 ∧
     (monthAbbrs.getD (m - 1) "").data.all isUpperChar = true ∧
     monthMap (String.mk ((monthAbbrs.getD (m - 1) "").data)) = some m) := by
  decide

/-- A canonical expiry rendering matches the `\d{1,2}[A-Z]{3}\d{2}` group
and is split back into its three components. -/
theorem matchExpiry_canonical (d m y : Nat) (hd1 : 0 < d) (hd : d < 100)
    (hm1 : 1 ≤ m) (hm2 : m ≤ 12) (_hy : y < 100) :
    matchExpiry (natToStr d ++ monthAbbrs.getD (m - 1) "" ++ pad2 y).data
      = some ((natToStr d).data, (monthAbbrs.getD (m - 1) "").data,
          (pad2 y).data) := by
  obtain ⟨hlen3, hupper, hmap⟩ := month_facts m (by omega) hm1
  obtain ⟨m1, m2, m3, hmon⟩ := List.length_eq_three.mp hlen3
  rw [hmon] at hupper
  simp only [List.all_cons, List.all_nil, Bool.and_eq_true, Bool.and_true] at hupper
  obtain ⟨hu1, hu2, hu3⟩ := hupper
  rcases Nat.lt_or_ge d 10 with hlt | hge
  · rw [String.data_append, String.data_append,
      natToStr_data_lt10 d hd1 hlt, hmon, pad2_data]
    simp only [List.cons_append, List.nil_append]
    simp [matchExpiry, isDigitChar_digitChr d (by omega), hu1, hu2, hu3,
      isDigitChar_digitChr (y / 10 % 10) (by omega),
      isDigitChar_digitChr (y % 10) (by omega)]
  · rw [String.data_append, String.data_append,
      natToStr_data_lt100 d hge hd, hmon, pad2_data]
    simp only [List.cons_append, List.nil_append]
    simp [matchExpiry, isDigitChar_digitChr (d / 10) (by omega),
      isDigitChar_digitChr (d % 10) (by omega), hu1, hu2, hu3,
      isDigitChar_digitChr (y / 10 % 10) (by omega),
      isDigitChar_digitChr (y % 10) (by omega)]

/-- A canonical instrument name matches `INSTRUMENT_PATTERN`, with the
capture groups recovering exactly the rendered components. -/
theorem instrumentMatch_canonical (u : String) (d m y k : Nat) (t : String)
    (hu : u = "BTC" ∨ u = "ETH") (ht : t = "C" ∨ t = "P")
    (hd1 : 0 < d) (hd : d < 100) (hm1 : 1 ≤ m) (hm2 : m ≤ 12) (hy : y < 100) :
    instrumentMatch (mkName u d m y k t)
      = some ⟨u, (natToStr d).data, (monthAbbrs.getD (m - 1) "").data,
          (pad2 y).data, (natToStr k).data, t⟩ := by
  have hdash : ("-" : String).data = ['-'] := rfl
  have hdata : (mkName u d m y k t).data
      = u.data ++ '-' ::
          ((natToStr d ++ monthAbbrs.getD (m - 1) "" ++ pad2 y).data
            ++ '-' :: ((natToStr k).data ++ '-' :: t.data)) := by
    simp [mkName, String.data_append, hdash, List.append_assoc]
  have hnd1 : u.data.all (fun c => c != '-') = true := by
    rcases hu with h | h <;> subst h <;> decide
  have hnd2 : ((natToStr d ++ monthAbbrs.getD (m - 1) "" ++ pad2 y).data).all
      (fun c => c != '-') = true := by
    obtain ⟨_, hupper, _⟩ := month_facts m (by omega) hm1
    rw [String.data_append, String.data_append, List.all_append,
      List.all_append, all_digits_noDash _ (natToStr_all_digits d),
      all_upper_noDash _ hupper, all_digits_noDash _ (pad2_all_digits y)]
    rfl
  have hnd3 : ((natToStr k).data).all (fun c => c != '-') = true :=
    all_digits_noDash _ (natToStr_all_digits k)
  have hnd4 : t.data.all (fun c => c != '-') = true := by
    rcases ht with h | h <;> subst h <;> decide
  have hsplit : splitDash (mkName u d m y k t).data
      = [u.data, (natToStr d ++ monthAbbrs.getD (m - 1) "" ++ pad2 y).data,
         (natToStr k).data, t.data] := by
    rw [hdata, splitDash_append _ _ hnd1, splitDash_append _ _ hnd2,
      splitDash_append _ _ hnd3, splitDash_noDash _ hnd4]
  have hexp : matchExpiry ((natToStr d).data
        ++ ((monthAbbrs.getD (m - 1) "").data ++ (pad2 y).data))
      = some ((natToStr d).data, (monthAbbrs.getD (m - 1) "").data,
          (pad2 y).data) := by
    have h0 := matchExpiry_canonical d m y hd1 hd hm1 hm2 hy
    simpa [String.data_append, List.append_assoc] using h0
  have hexp2 : matchExpiry ((natToStr d).data
        ++ ((monthAbbrs[m - 1]?.getD "").data ++ (pad2 y).data))
      = some ((natToStr d).data, (monthAbbrs[m - 1]?.getD "").data,
          (pad2 y).data) := by
    simpa using hexp
  have hkne : (natToStr k).data ≠ [] := natToStr_ne_nil k
  have hkall : ((natToStr k).data).all isDigitChar = true := natToStr_all_digits k
  rcases hu with h | h <;> rcases ht with h2 | h2 <;> subst h <;> subst h2 <;>
    simp [instrumentMatch, hsplit, hexp2, hkne, hkall]

theorem daysInMonth_le (y m : Nat) : daysInMonth y m ≤ 31 := by
  unfold daysInMonth
  split_ifs <;> decide

/-- **C2, counterexample** — `"BTC-07MAR25-100-C"` matches the
instrument-name grammar (zero-padded day), parses successfully, but
formats back as `"BTC-7MAR25-100-C"`: `format_instrument` renders the day
with `str(day)` and drops the zero padding, so `format(parse(s))` is not
`s` byte-for-byte. -/
theorem C2_roundtrip_counterexample :
    parse_instrument "BTC-07MAR25-100-C"
      = some ⟨"BTC-07MAR25-100-C", "BTC", ⟨2025, 3, 7⟩, 100, "C"⟩ ∧
    formatParsed ⟨"BTC-07MAR25-100-C", "BTC", ⟨2025, 3, 7⟩, 100, "C"⟩
      = some "BTC-7MAR25-100-C" ∧
    "BTC-7MAR25-100-C" ≠ "BTC-07MAR25-100-C" := by
  refine ⟨by decide, by decide, by decide⟩

/-- **C2, amended** — for every grammar string whose day and strike are
written canonically (no leading zeros), whose expiry is a real calendar
date and whose strike value stays below `2^53` (where Python's
float-typed strike is exact), `format_instrument` applied to the fields
of `parse_instrument` reproduces the string byte-for-byte. -/
theorem C2_roundtrip_amended (u : String) (d m y k : Nat) (t : String)
    (hu : u = "BTC" ∨ u = "ETH") (ht : t = "C" ∨ t = "P")
    (hm1 : 1 ≤ m) (hm2 : m ≤ 12) (hy : y < 100)
    (hd1 : 1 ≤ d) (hdm : d ≤ daysInMonth (2000 + y) m) (_hk : k < 2 ^ 53) :
    parse_instrument (mkName u d m y k t)
      = some ⟨mkName u d m y k t, u, ⟨2000 + y, m, d⟩, k, t⟩ ∧
    formatParsed ⟨mkName u d m y k t, u, ⟨2000 + y, m, d⟩, k, t⟩
      = some (mkName u d m y k t) := by
  have hd100 : d < 100 := by
    have h31 := daysInMonth_le (2000 + y) m
    omega
  have hvalid : Date.valid ⟨2000 + y, m, d⟩ = true := by
    simp only [Date.valid, Bool.and_eq_true, decide_eq_true_eq]
    exact ⟨⟨⟨hm1, hm2⟩, hd1⟩, hdm⟩
  have hmatch := instrumentMatch_canonical u d m y k t hu ht (by omega) hd100
    hm1 hm2 hy
  obtain ⟨_, _, hmap⟩ := month_facts m (by omega) hm1
  constructor
  · simp only [parse_instrument, hmatch, parseExpiryGroups, hmap,
      natOfDigits_pad2 y hy, natOfDigits_natToStr, hvalid]
    simp
  · simp only [formatParsed, format_instrument]
    have hmod : (2000 + y) % 100 = y := by omega
    rcases hu with h | h <;> rcases ht with h2 | h2 <;> subst h <;> subst h2 <;>
      simp [mkName, hmod]

/-- Witness for C2's amended theorem: the counterexample string's
canonical sibling `"BTC-7MAR25-100-C"` round-trips. -/
theorem C2_roundtrip_witness :
    parse_instrument (mkName "BTC" 7 3 25 100 "C")
      = some ⟨mkName "BTC" 7 3 25 100 "C", "BTC", ⟨2025, 3, 7⟩, 100, "C"⟩ ∧
    formatParsed ⟨mkName "BTC" 7 3 25 100 "C", "BTC", ⟨2025, 3, 7⟩, 100, "C"⟩
      = some (mkName "BTC" 7 3 25 100 "C") :=
  C2_roundtrip_amended "BTC" 7 3 25 100 "C" (Or.inl rfl) (Or.inl rfl)
    (by norm_num) (by norm_num) (by norm_num) (by norm_num) (by decide)
    (by norm_num)

/-! Lemmas for the deduplication token (claim C4). -/

theorem wordHex8_length (w : Nat) : (wordHex8 w).length = 8 := by
  simp [wordHex8]

theorem compressBlock_bounded (hs : Hash8) (b : List Nat) :
    (compressBlock hs b).bounded := by
  refine ⟨?_, ?_, ?_, ?_, ?_, ?_, ?_, ?_⟩ <;>
    exact Nat.mod_lt _ (by norm_num)

theorem foldl_compressBlock_bounded (blocks : List (List Nat)) :
    ∀ hs : Hash8, hs.bounded →
      (blocks.foldl compressBlock hs).bounded := by
  induction blocks with
  | nil => intro hs h; exact h
  | cons b bs ih =>
    intro hs _
    exact ih (compressBlock hs b) (compressBlock_bounded hs b)

theorem sha256Hash_bounded (msg : List Nat) : (sha256Hash msg).bounded :=
  foldl_compressBlock_bounded _ shaH0 (by norm_num [Hash8.bounded, shaH0])

/-- The 32-character truncation of the hexdigest is determined by the
first four hash words. -/
theorem token_eq_render4 (currency : String) (start_ts end_ts batch : Nat) :
    _generate_deduplication_token currency start_ts end_ts batch
      = render4 ((sha256Hash (utf8Bytes (currency ++ ":" ++ natToStr start_ts
          ++ ":" ++ natToStr end_ts ++ ":" ++ natToStr batch))).a,
        (sha256Hash (utf8Bytes (currency ++ ":" ++ natToStr start_ts
          ++ ":" ++ natToStr end_ts ++ ":" ++ natToStr batch))).b,
        (sha256Hash (utf8Bytes (currency ++ ":" ++ natToStr start_ts
          ++ ":" ++ natToStr end_ts ++ ":" ++ natToStr batch))).c,
        (sha256Hash (utf8Bytes (currency ++ ":" ++ natToStr start_ts
          ++ ":" ++ natToStr end_ts ++ ":" ++ natToStr batch))).d) := by
  simp only [_generate_deduplication_token, sha256hexChars, render4]
  congr 1

/-- The token function has finite range at fixed job identity: every
token is the hex rendering of a 128-bit value. -/
theorem token_range_finite (c : String) (s e : Nat) :
    (Set.range (fun b => _generate_deduplication_token c s e b)).Finite := by
  have hfinset : ((Set.Iio 4294967296) ×ˢ (Set.Iio 4294967296)
      ×ˢ (Set.Iio 4294967296) ×ˢ (Set.Iio (4294967296 : Nat))).Finite :=
    (Set.finite_Iio _).prod ((Set.finite_Iio _).prod
      ((Set.finite_Iio _).prod (Set.finite_Iio _)))
  apply Set.Finite.subset (Set.Finite.image render4 hfinset)
  rintro x ⟨b, rfl⟩
  have hb := sha256Hash_bounded (utf8Bytes (c ++ ":" ++ natToStr s
    ++ ":" ++ natToStr e ++ ":" ++ natToStr b))
  refine ⟨_, ?_, (token_eq_render4 c s e b).symm⟩
  simp only [Set.mem_prod, Set.mem_Iio]
  exact ⟨hb.1, hb.2.1, hb.2.2.1, hb.2.2.2.1⟩

/-- **C4, counterexample** — "two calls that differ only in the batch
number always return different token strings" is false: the token is a
32-hex-character (128-bit) truncation, so over the infinitely many batch
numbers of a fixed job identity the map into the finite token space
cannot be injective; two distinct batch numbers with the same token must
exist (pigeonhole; no explicit colliding pair is feasible to exhibit). -/
theorem C4_token_counterexample :
    ¬ (∀ b1 b2 : Nat, b1 ≠ b2 →
      _generate_deduplication_token "BTC" 0 0 b1
        ≠ _generate_deduplication_token "BTC" 0 0 b2) := by
  intro hall
  have hinj : Function.Injective
      (fun b : Nat => _generate_deduplication_token "BTC" 0 0 b) := by
    intro a b hab
    by_contra hne
    exact hall a b hne hab
  have hfin := token_range_finite "BTC" 0 0
  haveI := hfin.to_subtype
  haveI : Finite Nat := Finite.of_injective
    (fun b : Nat => (⟨_generate_deduplication_token "BTC" 0 0 b,
      Set.mem_range_self b⟩ :
      ↥(Set.range (fun b => _generate_deduplication_token "BTC" 0 0 b))))
    (fun a b h => hinj (congrArg Subtype.val h))
  exact not_finite Nat

set_option maxRecDepth 8000 in
/-- **C4, amended** — `_generate_deduplication_token` is a deterministic
pure function of (currency, start_ts, end_ts, batch): identical inputs
give identical tokens.  Distinct batch numbers give distinct tokens for
concrete pairs (here batches 1 and 2 of one job identity), but not
universally: the 128-bit truncation forces collisions somewhere among all
batch numbers. -/
theorem C4_token_amended :
    (∀ (c c' : String) (s s' e e' b b' : Nat),
      c = c' → s = s' → e = e' → b = b' →
      _generate_deduplication_token c s e b
        = _generate_deduplication_token c' s' e' b') ∧
    _generate_deduplication_token "BTC" 1000 2000 1
      ≠ _generate_deduplication_token "BTC" 1000 2000 2 := by
  constructor
  · intro c c' s s' e e' b b' h1 h2 h3 h4
    subst h1
    subst h2
    subst h3
    subst h4
    rfl
  · decide

/-- Witness for C4's amended theorem: determinism applied at one input. -/
theorem C4_token_witness :
    _generate_deduplication_token "BTC" 5 6 7
      = _generate_deduplication_token "BTC" 5 6 7 :=
  C4_token_amended.1 "BTC" "BTC" 5 5 6 6 7 7 rfl rfl rfl rfl

/-! Case lemmas for one loop iteration. -/

theorem collectBody_fetchFail (cfg : CollectConfig) (pages : Nat → List Trade)
    (insertOk fetchOk : Nat → Bool) (st : CollectorState)
    (h : fetchOk st.iter = false) :
    collectBody cfg pages insertOk fetchOk st = (st, .fail .api) := by
  simp [collectBody, h]

theorem collectBody_emptyPage (cfg : CollectConfig) (pages : Nat → List Trade)
    (insertOk fetchOk : Nat → Bool) (st : CollectorState)
    (h1 : fetchOk st.iter = true) (h2 : pages st.iter = []) :
    collectBody cfg pages insertOk fetchOk st
      = ({ st with iter := st.iter + 1 }, .brk) := by
  simp [collectBody, h1, h2]

theorem collectBody_page (cfg : CollectConfig) (pages : Nat → List Trade)
    (insertOk fetchOk : Nat → Bool) (st : CollectorState)
    (h1 : fetchOk st.iter = true) (h2 : pages st.iter ≠ []) :
    collectBody cfg pages insertOk fetchOk st
      = insertStage cfg insertOk
          (accumulate cfg (pages st.iter) { st with iter := st.iter + 1 }) := by
  simp [collectBody, h1, h2]

theorem accumulate_checkpointFile (cfg : CollectConfig) (tr : List Trade)
    (st : CollectorState) :
    (accumulate cfg tr st).checkpointFile = st.checkpointFile := rfl

theorem accumulate_currentEndTs (cfg : CollectConfig) (tr : List Trade)
    (st : CollectorState) :
    (accumulate cfg tr st).currentEndTs = listMinTs tr - 1 := rfl

theorem insertStage_currentEndTs (cfg : CollectConfig) (io : Nat → Bool)
    (st : CollectorState) :
    (insertStage cfg io st).1.currentEndTs = st.currentEndTs := by
  unfold insertStage
  split_ifs <;> rfl

theorem insertStage_fail_checkpoint (cfg : CollectConfig) (io : Nat → Bool)
    (st : CollectorState) :
    (insertStage cfg io st).2 = .fail .storage →
    (insertStage cfg io st).1.checkpointFile = st.checkpointFile := by
  unfold insertStage
  split_ifs <;> simp

theorem insertStage_cont_checkpoint (cfg : CollectConfig) (io : Nat → Bool)
    (st st' : CollectorState) (h : insertStage cfg io st = (st', .cont)) :
    st'.checkpointFile = st.checkpointFile ∨
    (io st'.batchNumber = true ∧
     st'.checkpointFile = some ⟨st'.currentEndTs, st'.batchNumber,
       st'.totalCollected, st'.paginationWarnings⟩) := by
  unfold insertStage at h
  split_ifs at h with hc hins
  · simp at h
  · right
    injection h with h1 _
    subst h1
    simp only [Bool.not_eq_false] at hins
    exact ⟨hins, rfl⟩
  · left
    injection h with h1 _
    subst h1
    rfl

/-- **C9** — `is_valid_instrument` returning `true` does not imply that
`parse_instrument` succeeds: `"BTC-30FEB24-100-C"` matches the regex
pattern (so `is_valid_instrument` returns `true`) but February 30 is not
a real calendar date, so `parse_instrument` raises `InstrumentParseError`
(`none` in the model). -/
theorem C9_valid_yet_unparsable :
    is_valid_instrument "BTC-30FEB24-100-C" = true ∧
    parse_instrument "BTC-30FEB24-100-C" = none := by decide

/-- **C7** — on `prev = [{trade_id:"1", timestamp:5000}]`,
`curr = [{trade_id:"1", timestamp:1000}]` with the default 1000 ms
threshold, `_validate_page_continuity` returns `is_valid=False` and
exactly two warnings, one containing `"Gap detected"` and `"4000ms"`, one
containing `"Duplicates"` and duplicate count 1; and whenever either page
is empty it returns `(True, [])`. -/
theorem C7_continuity_concrete_and_empty :
    (validatePageContinuity [⟨"1", 5000⟩] [⟨"1", 1000⟩] 1000 =
      (false,
       ["Gap detected: 4000ms between pages (threshold: 1000ms)",
        "Duplicates: 1 trades appear in both pages"])) ∧
    (containsSub "Gap detected".data
      "Gap detected: 4000ms between pages (threshold: 1000ms)".data = true) ∧
    (containsSub "4000ms".data
      "Gap detected: 4000ms between pages (threshold: 1000ms)".data = true) ∧
    (containsSub "Duplicates".data
      "Duplicates: 1 trades appear in both pages".data = true) ∧
    (containsSub "1".data
      "Duplicates: 1 trades appear in both pages".data = true) ∧
    (∀ (prev curr : List Trade) (th : Int), prev = [] ∨ curr = [] →
      validatePageContinuity prev curr th = (true, [])) := by
  refine ⟨by decide, by decide, by decide, by decide, by decide, ?_⟩
  intro prev curr th h
  rcases h with h | h <;> subst h <;> simp [validatePageContinuity]

/-- Witness for C7: the empty-page clause applied at a concrete input. -/
theorem C7_continuity_witness :
    validatePageContinuity [] [⟨"x", 3⟩] 5 = (true, []) :=
  C7_continuity_concrete_and_empty.2.2.2.2.2 [] [⟨"x", 3⟩] 5 (Or.inl rfl)

/-- **C3, counterexample** — the claim asserts the cursor strictly
decreases for *every* non-empty page, "including pages containing
timestamps outside the requested window".  With the cursor at 1000, a
non-empty page whose sole timestamp is 1002 (later than the window end)
drives the cursor to `min − 1 = 1001 > 1000`: the cursor *increases*. -/
theorem C3_cursor_counterexample :
    pagesBeyondWindow stCursor1000.iter ≠ [] ∧
    stCursor1000.currentEndTs = 1000 ∧
    (collectBody cfgNoInsert pagesBeyondWindow insertAlwaysOk fetchAlwaysOk
      stCursor1000).1.currentEndTs = 1001 ∧
    ¬ ((collectBody cfgNoInsert pagesBeyondWindow insertAlwaysOk fetchAlwaysOk
      stCursor1000).1.currentEndTs < stCursor1000.currentEndTs) := by
  decide

/-- **C3, amended** — the cursor update `current_end_ts := (min timestamp
in page) − 1` yields a strictly smaller cursor for every non-empty page
*whose minimum timestamp does not exceed the cursor value used for the
fetch* (in particular for every page lying inside the requested window);
a page lying entirely after the window end can move the cursor forward. -/
theorem C3_cursor_decreases_amended (cfg : CollectConfig)
    (pages : Nat → List Trade) (insertOk fetchOk : Nat → Bool)
    (st : CollectorState)
    (hf : fetchOk st.iter = true) (hne : pages st.iter ≠ [])
    (hmin : listMinTs (pages st.iter) ≤ st.currentEndTs) :
    (collectBody cfg pages insertOk fetchOk st).1.currentEndTs
      < st.currentEndTs := by
  rw [collectBody_page cfg pages insertOk fetchOk st hf hne,
    insertStage_currentEndTs, accumulate_currentEndTs]
  omega

/-- Witness for C3's amended theorem: one in-window page moves the cursor
from 1000 to 399. -/
theorem C3_cursor_decreases_witness :
    (collectBody cfgNoInsert pagesOneThenEmpty insertAlwaysOk fetchAlwaysOk
      stCursor1000).1.currentEndTs < stCursor1000.currentEndTs :=
  C3_cursor_decreases_amended cfgNoInsert pagesOneThenEmpty insertAlwaysOk
    fetchAlwaysOk stCursor1000 (by decide) (by decide) (by decide)

/-- **C6, counterexample** — resuming from a checkpoint whose stored
`pagination_warnings` is 7 yields a cursor whose warning counter is 0:
`collect_trades` restores only `last_end_ts`, `batch_number` and
`total_collected`; `pagination_warnings` is initialized to 0 at line 288
regardless of the checkpoint, so the "full Cursor" is not restored. -/
theorem C6_restore_counterexample :
    cfgInsert.resume = true ∧
    (initState cfgInsert (some ⟨100, 2, 5000, 7⟩)).currentEndTs = 100 ∧
    (initState cfgInsert (some ⟨100, 2, 5000, 7⟩)).batchNumber = 2 ∧
    (initState cfgInsert (some ⟨100, 2, 5000, 7⟩)).totalCollected = 5000 ∧
    ¬ ((initState cfgInsert (some ⟨100, 2, 5000, 7⟩)).paginationWarnings
        = (Checkpoint.mk 100 2 5000 7).pagination_warnings) := by
  decide

/-- **C6, amended** — with `resume=True` and an existing checkpoint, the
cursor's `current_end_ts`, `batch_number` and `total_collected` are
restored from the checkpoint's stored fields while
`pagination_warning_count` is reset to 0 (it is saved but never read
back); otherwise the cursor starts fresh at `range_end`/0/0/0.  Loading
leaves the checkpoint file itself untouched. -/
theorem C6_restore_amended :
    (∀ (cfg : CollectConfig) (fs : Option Checkpoint) (c : Checkpoint),
      cfg.resume = true → fs = some c →
      initState cfg fs =
        ⟨c.last_end_ts, c.batch_number, c.total_collected, 0,
         [], [], [], 0, fs⟩) ∧
    (∀ (cfg : CollectConfig) (fs : Option Checkpoint),
      cfg.resume = false ∨ fs = none →
      initState cfg fs = ⟨cfg.endTs, 0, 0, 0, [], [], [], 0, fs⟩) := by
  constructor
  · intro cfg fs c h1 h2
    subst h2
    simp [initState, h1]
  · intro cfg fs h
    rcases h with h | h
    · simp [initState, h]
    · subst h
      simp [initState, ite_self]

/-- Witness for C6's amended theorem: both clauses at concrete inputs. -/
theorem C6_restore_witness :
    initState cfgInsert (some ⟨100, 2, 5000, 7⟩) =
      ⟨100, 2, 5000, 0, [], [], [], 0, some ⟨100, 2, 5000, 7⟩⟩ ∧
    initState cfgNoInsert (some ⟨100, 2, 5000, 7⟩) =
      ⟨1000, 0, 0, 0, [], [], [], 0, some ⟨100, 2, 5000, 7⟩⟩ :=
  ⟨C6_restore_amended.1 cfgInsert (some ⟨100, 2, 5000, 7⟩) ⟨100, 2, 5000, 7⟩
      rfl rfl,
   C6_restore_amended.2 cfgNoInsert (some ⟨100, 2, 5000, 7⟩) (Or.inl rfl)⟩

/-- **C1** — the checkpoint is written strictly after the insert call
returns successfully: an iteration whose insert raises a storage error
leaves the checkpoint file exactly as it was when the iteration began
(the failing batch is never recorded), and an iteration that continues
either left the checkpoint untouched or wrote it after a successful
insert of the batch it records. -/
theorem C1_checkpoint_after_insert (cfg : CollectConfig)
    (pages : Nat → List Trade) (insertOk fetchOk : Nat → Bool)
    (st : CollectorState) :
    ((collectBody cfg pages insertOk fetchOk st).2 = .fail .storage →
      (collectBody cfg pages insertOk fetchOk st).1.checkpointFile
        = st.checkpointFile) ∧
    (∀ st', collectBody cfg pages insertOk fetchOk st = (st', .cont) →
      st'.checkpointFile = st.checkpointFile ∨
      (insertOk st'.batchNumber = true ∧
       st'.checkpointFile = some ⟨st'.currentEndTs, st'.batchNumber,
         st'.totalCollected, st'.paginationWarnings⟩)) := by
  by_cases h1 : fetchOk st.iter = false
  · rw [collectBody_fetchFail cfg pages insertOk fetchOk st h1]
    constructor
    · intro h
      simp at h
    · intro st' h
      simp at h
  · have h1' : fetchOk st.iter = true := by
      revert h1
      cases fetchOk st.iter <;> simp
    by_cases h2 : pages st.iter = []
    · rw [collectBody_emptyPage cfg pages insertOk fetchOk st h1' h2]
      constructor
      · intro h
        simp at h
      · intro st' h
        injection h with ha hb
        simp at hb
    · rw [collectBody_page cfg pages insertOk fetchOk st h1' h2]
      constructor
      · intro h
        rw [insertStage_fail_checkpoint cfg insertOk _ h,
          accumulate_checkpointFile]
      · intro st' h
        rcases insertStage_cont_checkpoint cfg insertOk _ st' h with hl | hr
        · left
          rw [hl, accumulate_checkpointFile]
        · right
          exact hr

/-- Witness for C1: a batch reaching the 10000-row threshold whose insert
fails leaves the pre-existing checkpoint record in place. -/
theorem C1_checkpoint_witness :
    (collectBody cfgInsert pagesOneThenEmpty insertAlwaysFail fetchAlwaysOk
      stNearThreshold).2 = .fail .storage ∧
    (collectBody cfgInsert pagesOneThenEmpty insertAlwaysFail fetchAlwaysOk
      stNearThreshold).1.checkpointFile = stNearThreshold.checkpointFile := by
  have hlen : (accumulate cfgInsert (pagesOneThenEmpty stNearThreshold.iter)
      { stNearThreshold with iter := stNearThreshold.iter + 1 }
      ).batchTrades.length = BATCH_SIZE_FOR_INSERT := by
    have h1 : (accumulate cfgInsert (pagesOneThenEmpty stNearThreshold.iter)
        { stNearThreshold with iter := stNearThreshold.iter + 1 }).batchTrades
        = List.replicate (BATCH_SIZE_FOR_INSERT - 1) ⟨"a", 450⟩
          ++ pagesOneThenEmpty 0 := rfl
    rw [h1, List.length_append, List.length_replicate]
    decide
  have hins : insertStage cfgInsert insertAlwaysFail
      (accumulate cfgInsert (pagesOneThenEmpty stNearThreshold.iter)
        { stNearThreshold with iter := stNearThreshold.iter + 1 })
      = ({ (accumulate cfgInsert (pagesOneThenEmpty stNearThreshold.iter)
          { stNearThreshold with iter := stNearThreshold.iter + 1 }) with
          batchNumber := (accumulate cfgInsert
            (pagesOneThenEmpty stNearThreshold.iter)
            { stNearThreshold with iter := stNearThreshold.iter + 1 }
            ).batchNumber + 1 }, .fail .storage) := by
    unfold insertStage
    rw [if_pos ⟨rfl, hlen.ge⟩]
    exact if_pos rfl
  have hbody : (collectBody cfgInsert pagesOneThenEmpty insertAlwaysFail
      fetchAlwaysOk stNearThreshold).2 = .fail .storage := by
    rw [collectBody_page cfgInsert pagesOneThenEmpty insertAlwaysFail
      fetchAlwaysOk stNearThreshold rfl (by decide), hins]
  exact ⟨hbody,
    (C1_checkpoint_after_insert cfgInsert pagesOneThenEmpty insertAlwaysFail
      fetchAlwaysOk stNearThreshold).1 hbody⟩

/-- **C10** — every `collect_trades` run that returns without raising
ends with `_clear_checkpoint`: the final on-disk checkpoint slot for the
job identity is empty, for every configuration (in particular with
`insert_to_db=False`, and with `resume=False` while a stale checkpoint
from an earlier interrupted run existed — that record is deleted). -/
theorem C10_clear_checkpoint (cfg : CollectConfig)
    (pages : Nat → List Trade) (insertOk fetchOk : Nat → Bool)
    (fs : Option Checkpoint) (fuel : Nat)
    (st' : CollectorState) (r : CollectReturn)
    (h : collect_trades cfg pages insertOk fetchOk fs fuel = (st', .done r)) :
    st'.checkpointFile = none := by
  simp only [collect_trades] at h
  rcases hl : collectLoop cfg pages insertOk fetchOk fuel (initState cfg fs)
    with ⟨st, e⟩
  rw [hl] at h
  cases e with
  | outOfFuel => simp at h
  | failed e => simp at h
  | finished =>
    have h2 : (match drainStage cfg insertOk st with
        | (st2, some e) => (st2, Outcome.failed e)
        | (st2, none) => finishRun cfg st2) = (st', Outcome.done r) := h
    rcases hd : drainStage cfg insertOk st with ⟨st2, oe⟩
    rw [hd] at h2
    cases oe with
    | some e => simp at h2
    | none =>
      unfold finishRun at h2
      split_ifs at h2 <;> (injection h2 with ha hb; rw [← ha])

/-- Witness for C10: a completed run with `insert_to_db=False`,
`resume=False` and a stale checkpoint on disk ends with no checkpoint. -/
theorem C10_clear_checkpoint_witness :
    collect_trades cfgNoInsert pagesOneThenEmpty insertAlwaysOk fetchAlwaysOk
      (some ⟨77, 1, 10, 2⟩) 5 =
      (⟨399, 0, 0, 0, [⟨"b", 400⟩], [⟨"b", 400⟩], [⟨"b", 400⟩], 2, none⟩,
       .done (.data [⟨"b", 400⟩])) ∧
    (⟨399, 0, 0, 0, [⟨"b", 400⟩], [⟨"b", 400⟩], [⟨"b", 400⟩], 2, none⟩
      : CollectorState).checkpointFile = none := by
  have h : collect_trades cfgNoInsert pagesOneThenEmpty insertAlwaysOk
      fetchAlwaysOk (some ⟨77, 1, 10, 2⟩) 5 =
      (⟨399, 0, 0, 0, [⟨"b", 400⟩], [⟨"b", 400⟩], [⟨"b", 400⟩], 2, none⟩,
       .done (.data [⟨"b", 400⟩])) := by decide
  exact ⟨h, C10_clear_checkpoint cfgNoInsert pagesOneThenEmpty insertAlwaysOk
    fetchAlwaysOk (some ⟨77, 1, 10, 2⟩) 5 _ _ h⟩

/-- Attempt counter of the retried fetch never exceeds the attempt budget. -/
theorem retryFetchFrom_snd_le (resp : Nat → Option HttpResponse) :
    ∀ (left i : Nat), (retryFetchFrom resp i left).2 ≤ i + left := by
  intro left
  induction left with
  | zero => intro i; simp [retryFetchFrom]
  | succ l ih =>
    intro i
    unfold retryFetchFrom
    cases fetchTradesPageOnce (resp i) with
    | ok page => simp
    | err e =>
      by_cases hl : l = 0
      · simp [hl]
      · simp only [hl, if_false]
        calc (retryFetchFrom resp (i + 1) l).2 ≤ (i + 1) + l := ih (i + 1)
          _ = i + (l + 1) := by omega

/-- With at least one attempt allowed, at least one attempt is made. -/
theorem retryFetchFrom_snd_ge (resp : Nat → Option HttpResponse) :
    ∀ (left i : Nat), 1 ≤ left → i + 1 ≤ (retryFetchFrom resp i left).2 := by
  intro left
  induction left with
  | zero => intro i h; omega
  | succ l ih =>
    intro i _
    unfold retryFetchFrom
    cases fetchTradesPageOnce (resp i) with
    | ok page => simp
    | err e =>
      by_cases hl : l = 0
      · simp [hl]
      · simp only [hl, if_false]
        have := ih (i + 1) (by omega)
        omega

/-- **C5, counterexample** — the first attempt returns HTTP 200 with an
`"error"` envelope (raising `APIError`), yet the call is retried: the
second attempt is made and succeeds, so the envelope failure is *not*
fatal for the call.  tenacity's `@retry` with only `stop=`/`wait=`
retries every exception, including the envelope `APIError`. -/
theorem C5_envelope_retried_counterexample :
    fetchTradesPageOnce (respSeqEnvelopeThenOk 0) = .err .apiEnvelope ∧
    fetchTradesPage respSeqEnvelopeThenOk = (.ok [⟨"t", 5⟩], 2) := by
  decide

/-- **C5, amended** — an HTTP-200 response carrying the `"error"`
envelope raises `APIError`, which the retry decorator treats exactly like
transport failures and non-2xx statuses: the call is retried (a second
attempt is always made after any first-attempt failure) and in total at
most `MAX_RETRIES = 3` attempts are performed. -/
theorem C5_envelope_retried_amended :
    (∀ (responses : Nat → Option HttpResponse) (e : FetchFailure),
      fetchTradesPageOnce (responses 0) = .err e →
      2 ≤ (fetchTradesPage responses).2) ∧
    (∀ responses : Nat → Option HttpResponse,
      (fetchTradesPage responses).2 ≤ MAX_RETRIES) := by
  constructor
  · intro resp e h
    show 2 ≤ (retryFetchFrom resp 0 MAX_RETRIES).2
    unfold MAX_RETRIES retryFetchFrom
    rw [h]
    simp only [if_false]
    exact retryFetchFrom_snd_ge resp 2 1 (by omega)
  · intro resp
    have := retryFetchFrom_snd_le resp MAX_RETRIES 0
    simpa using this

/-- Witness for C5's amended theorem at the concrete response sequence. -/
theorem C5_envelope_retried_witness :
    2 ≤ (fetchTradesPage respSeqEnvelopeThenOk).2 ∧
    (fetchTradesPage respSeqEnvelopeThenOk).2 ≤ MAX_RETRIES :=
  ⟨C5_envelope_retried_amended.1 respSeqEnvelopeThenOk .apiEnvelope (by decide),
   C5_envelope_retried_amended.2 respSeqEnvelopeThenOk⟩

/-! Lemmas for the bounded retained-rows buffer (claim C8). -/

theorem dequeExtend_eq_rtake (m : Nat) (d r : List Trade) :
    dequeExtend m d r = (d ++ r).rtake m := rfl

theorem rtake_append_rtake (m : Nat) (xs ys : List Trade) :
    (xs.rtake m ++ ys).rtake m = (xs ++ ys).rtake m := by
  simp only [List.rtake_eq_reverse_take_reverse, List.reverse_append,
    List.reverse_reverse, List.take_append_eq_append_take, List.take_take]
  rw [Nat.min_eq_left (Nat.sub_le m ys.reverse.length)]

theorem rtake_length (l : List Trade) (n : Nat) :
    (l.rtake n).length = min n l.length := by
  simp only [List.rtake, List.length_drop]
  omega

theorem pagesConcat_succ (pages : Nat → List Trade) (k : Nat) :
    pagesConcat pages (k + 1) = pagesConcat pages k ++ pages k := by
  simp [pagesConcat, List.range_succ]

theorem insertStage_recent (cfg : CollectConfig) (io : Nat → Bool)
    (st : CollectorState) :
    (insertStage cfg io st).1.recentTrades = st.recentTrades := by
  unfold insertStage
  split_ifs <;> rfl

theorem insertStage_iter (cfg : CollectConfig) (io : Nat → Bool)
    (st : CollectorState) :
    (insertStage cfg io st).1.iter = st.iter := by
  unfold insertStage
  split_ifs <;> rfl

theorem drainStage_recent (cfg : CollectConfig) (io : Nat → Bool)
    (st : CollectorState) :
    (drainStage cfg io st).1.recentTrades = st.recentTrades := by
  unfold drainStage
  split_ifs <;> rfl

theorem drainStage_iter (cfg : CollectConfig) (io : Nat → Bool)
    (st : CollectorState) :
    (drainStage cfg io st).1.iter = st.iter := by
  unfold drainStage
  split_ifs <;> rfl

/-- The retained-rows buffer invariant through one iteration: it always
holds the last `maxlen` rows (in collection order) of all pages consumed
so far, where `maxlen` is `max_memory_rows` when `return_data` else 0. -/
theorem collectBody_recent (cfg : CollectConfig) (pages : Nat → List Trade)
    (insertOk fetchOk : Nat → Bool) (st : CollectorState)
    (h : st.recentTrades = (pagesConcat pages st.iter).rtake
      (if cfg.returnData then cfg.maxMemoryRows else 0)) :
    ((collectBody cfg pages insertOk fetchOk st).1).recentTrades
      = (pagesConcat pages
          ((collectBody cfg pages insertOk fetchOk st).1).iter).rtake
          (if cfg.returnData then cfg.maxMemoryRows else 0) := by
  by_cases h1 : fetchOk st.iter = false
  · rw [collectBody_fetchFail cfg pages insertOk fetchOk st h1]
    exact h
  · have h1' : fetchOk st.iter = true := by
      revert h1
      cases fetchOk st.iter <;> simp
    by_cases h2 : pages st.iter = []
    · rw [collectBody_emptyPage cfg pages insertOk fetchOk st h1' h2]
      show st.recentTrades = (pagesConcat pages (st.iter + 1)).rtake _
      rw [pagesConcat_succ, h2, List.append_nil]
      exact h
    · rw [collectBody_page cfg pages insertOk fetchOk st h1' h2,
        insertStage_recent, insertStage_iter]
      by_cases hr : cfg.returnData = true
      · have hacc : (accumulate cfg (pages st.iter)
            { st with iter := st.iter + 1 }).recentTrades
            = dequeExtend cfg.maxMemoryRows st.recentTrades (pages st.iter) := by
          simp [accumulate, hr]
        rw [hacc]
        show dequeExtend cfg.maxMemoryRows st.recentTrades (pages st.iter)
          = (pagesConcat pages (st.iter + 1)).rtake _
        simp only [hr, if_true] at h ⊢
        rw [dequeExtend_eq_rtake, pagesConcat_succ, h, rtake_append_rtake]
      · have hrf : cfg.returnData = false := by
          revert hr
          cases cfg.returnData <;> simp
        have hacc : (accumulate cfg (pages st.iter)
            { st with iter := st.iter + 1 }).recentTrades
            = st.recentTrades := by
          simp [accumulate, hrf]
        rw [hacc]
        simp only [hrf, Bool.false_eq_true, if_false] at h ⊢
        simp only [List.rtake_zero] at h ⊢
        exact h

/-- The retained-rows buffer invariant through the whole loop. -/
theorem collectLoop_recent (cfg : CollectConfig) (pages : Nat → List Trade)
    (insertOk fetchOk : Nat → Bool) :
    ∀ (fuel : Nat) (st : CollectorState),
    st.recentTrades = (pagesConcat pages st.iter).rtake
      (if cfg.returnData then cfg.maxMemoryRows else 0) →
    ((collectLoop cfg pages insertOk fetchOk fuel st).1).recentTrades
      = (pagesConcat pages
          ((collectLoop cfg pages insertOk fetchOk fuel st).1).iter).rtake
          (if cfg.returnData then cfg.maxMemoryRows else 0) := by
  intro fuel
  induction fuel with
  | zero =>
    intro st h
    exact h
  | succ f ih =>
    intro st h
    by_cases hc : st.currentEndTs > cfg.startTs
    · have hstep : collectLoop cfg pages insertOk fetchOk (f + 1) st
          = (match collectBody cfg pages insertOk fetchOk st with
             | (st', .cont) => collectLoop cfg pages insertOk fetchOk f st'
             | (st', .brk) => (st', .finished)
             | (st', .fail e) => (st', .failed e)) := by
        rw [collectLoop, if_pos hc]
      rw [hstep]
      have hrec := collectBody_recent cfg pages insertOk fetchOk st h
      rcases hb : collectBody cfg pages insertOk fetchOk st with ⟨st2, tag⟩
      rw [hb] at hrec
      cases tag with
      | cont => exact ih st2 hrec
      | brk => exact hrec
      | fail e => exact hrec
    · have hstep : collectLoop cfg pages insertOk fetchOk (f + 1) st = (st, .finished) := by
        rw [collectLoop, if_neg hc]
      rw [hstep]
      exact h

/-- **C8** — in every completed `collect_trades` run with
`return_data=True` and `max_memory_rows=100`, the returned DataFrame is
exactly the last 100 rows, in collection order, of all rows the run
collected (older rows evicted by the bounded deque): its row count never
exceeds 100, and equals 100 whenever 10000 rows were collected. -/
theorem C8_memory_bound (cfg : CollectConfig) (pages : Nat → List Trade)
    (insertOk fetchOk : Nat → Bool) (fs : Option Checkpoint) (fuel : Nat)
    (st' : CollectorState) (df : List Trade)
    (hret : cfg.returnData = true) (hmax : cfg.maxMemoryRows = 100)
    (h : collect_trades cfg pages insertOk fetchOk fs fuel
      = (st', .done (.data df))) :
    ∃ k, df = (pagesConcat pages k).rtake 100 ∧ df.length ≤ 100 ∧
      ((pagesConcat pages k).length = 10000 → df.length = 100) := by
  have hinit : (initState cfg fs).recentTrades
      = (pagesConcat pages (initState cfg fs).iter).rtake
        (if cfg.returnData then cfg.maxMemoryRows else 0) := by
    have h0 : (initState cfg fs).recentTrades = [] := by
      unfold initState
      cases (if cfg.resume then fs else none) <;> rfl
    have h0' : (initState cfg fs).iter = 0 := by
      unfold initState
      cases (if cfg.resume then fs else none) <;> rfl
    rw [h0, h0']
    simp [pagesConcat]
  have hloop := collectLoop_recent cfg pages insertOk fetchOk fuel
    (initState cfg fs) hinit
  simp only [collect_trades] at h
  rcases hl : collectLoop cfg pages insertOk fetchOk fuel (initState cfg fs)
    with ⟨st, e⟩
  rw [hl] at h hloop
  cases e with
  | outOfFuel => simp at h
  | failed e => simp at h
  | finished =>
    have h2 : (match drainStage cfg insertOk st with
        | (st2, some e) => (st2, Outcome.failed e)
        | (st2, none) => finishRun cfg st2) = (st', Outcome.done (.data df)) := h
    rcases hd : drainStage cfg insertOk st with ⟨st2, oe⟩
    rw [hd] at h2
    cases oe with
    | some e => simp at h2
    | none =>
      have hrecent2 : st2.recentTrades
          = (pagesConcat pages st2.iter).rtake 100 := by
        have ha := drainStage_recent cfg insertOk st
        have hb := drainStage_iter cfg insertOk st
        rw [hd] at ha hb
        simp only at ha hb
        rw [ha, hb]
        simpa [hret, hmax] using hloop
      have h3 : finishRun cfg st2 = (st', Outcome.done (.data df)) := h2
      unfold finishRun at h3
      rw [if_neg (show ¬ (cfg.returnData = false) by rw [hret]; simp)] at h3
      injection h3 with ha hb
      injection hb with hc
      injection hc with hdf
      refine ⟨st2.iter, ?_, ?_, ?_⟩
      · rw [← hdf]
        exact hrecent2
      · rw [← hdf, hrecent2, rtake_length]
        omega
      · intro hlen
        rw [← hdf, hrecent2, rtake_length, hlen]
        decide

/-- Witness for C8: a completed two-fetch run returning its single row. -/
theorem C8_memory_bound_witness :
    ∃ k, [(⟨"b", 400⟩ : Trade)] = (pagesConcat pagesOneThenEmpty k).rtake 100 ∧
      [(⟨"b", 400⟩ : Trade)].length ≤ 100 ∧
      ((pagesConcat pagesOneThenEmpty k).length = 10000 →
        [(⟨"b", 400⟩ : Trade)].length = 100) :=
  C8_memory_bound cfgMem100 pagesOneThenEmpty insertAlwaysOk fetchAlwaysOk
    none 5 ⟨399, 0, 0, 0, [⟨"b", 400⟩], [⟨"b", 400⟩], [⟨"b", 400⟩], 2, none⟩
    [⟨"b", 400⟩] rfl rfl (by decide)

end GaplessDeribit
